import Mathlib

/-!
Verification of the Tokopedia sales-dashboard data pipeline (src/UTS.py).

The pipeline is shallowly embedded:
  * a raw table (the result of pd.read_excel plus the to_datetime / to_numeric
    coercions, which are external parsers) is a list of raw rows whose cells are
    Option-valued: `none` models a NaN/NaT cell (missing or unparseable);
  * column availability is table-level: a record of Booleans mirrors
    `c in df.columns` checks.  Columns the dashboard unconditionally indexes
    (order id, customer id, sku fields, category, payment method, order date)
    are modelled as always-present columns with possibly-null cells, matching
    the spec's required-column set; flags are kept exactly for the columns the
    code itself branches on or that its aggregations index
    (price, qty_ordered, before_discount, after_discount, cogs, is_valid);
  * float cells are idealised as rationals (`Rat`);
  * a pandas `KeyError` (indexing a missing column) is `Except.error`;
  * `groupby` is: sorted list of the distinct non-null keys, each paired with
    the sublist of rows carrying that key (pandas sorts group keys and drops
    rows whose key is NaN);
  * the month key, the `strftime('%Y-%m')` string, is represented by the
    (year, month) pair it displays; its lexical string order coincides with
    lexicographic order on the pair.
-/

namespace Tokopodia

/-- Lower-casing of a Python `str.lower()` call, ASCII-faithful. -/
def lowerStr (s : String) : String := String.mk (s.data.map Char.toLower)

/-- Bool test that `pat` is a prefix of `l`. -/
def isPrefixOfB : List Char → List Char → Bool
  | [], _ => true
  | _ :: _, [] => false
  | a :: as, b :: bs => a == b && isPrefixOfB as bs

/-- Bool test that `pat` occurs contiguously inside `l`
(`pandas.Series.str.contains` with a literal pattern). -/
def isInfixB (pat : List Char) : List Char → Bool
  | [] => isPrefixOfB pat []
  | b :: bs => isPrefixOfB pat (b :: bs) || isInfixB pat bs

/-- Case-insensitive containment test: `s.lower().contains(pat)` where `pat`
is already lower-case. -/
def containsLower (s pat : String) : Bool := isInfixB pat.data (lowerStr s).data

/-- Python `str(x)` on a possibly-NaN cell: pandas `astype(str)` renders a NaN
cell as the string "nan". -/
def strOf (o : Option String) : String := o.getD "nan"

/-- Truncation toward zero of a rational, the behaviour of numpy's
`astype(int)` cast on a float. -/
def truncRat (q : Rat) : Int := if q < 0 then -(Int.floor (-q)) else Int.floor q

/-- Distinct elements of a list in order of first occurrence (the order in
which pandas discovers group keys). -/
def uniqueFirst {α : Type} [DecidableEq α] : List α → List α
  | [] => []
  | a :: l => a :: (uniqueFirst l).filter (fun b => b != a)

/-- Number of distinct non-null values in a column slice: pandas
`Series.nunique()`, which skips NaN. -/
def nunique {α : Type} [DecidableEq α] (l : List (Option α)) : Nat :=
  (uniqueFirst (l.filterMap id)).length

/-- Calendar content of a parseable order-date cell: exactly the data that the
dashboard's `dt.year`, `dt.month` and `strftime('%Y-%m')` accessors read. -/
structure Date where
  year : Int
  month : Nat
deriving DecidableEq

/-- One row of the raw spreadsheet after the external parsers ran: `none` is a
NaN/NaT cell.  Columns not consumed by the pipeline (discount_amount,
registered_date) are omitted; they feed no computation under verification. -/
structure RawRow where
  id : Option Nat
  customer_id : Option Nat
  sku_id : Option Nat
  sku_name : Option String
  category : Option String
  payment_method : Option String
  order_date : Option Date
  price : Option Rat
  qty_ordered : Option Rat
  before_discount : Option Rat
  after_discount : Option Rat
  cogs : Option Rat
  is_valid : Option Rat
deriving DecidableEq

/-- The raw table: rows plus the availability of the optional columns the code
branches on (mirrors `c in df.columns`). -/
structure RawTable where
  rows : List RawRow
  hasPrice : Bool
  hasQty : Bool
  hasBefore : Bool
  hasAfter : Bool
  hasCogs : Bool
  hasIsValid : Bool
deriving DecidableEq

/-- One row of the prepared table (`load_data`'s output).  Numeric fields hold
the coerced values (`to_numeric(...).fillna(0)`); for an absent column the
stored value is the 0 that `df.get(col, 0)` supplies, and the table-level flag
records that the column itself is absent. -/
structure PRow where
  id : Option Nat
  customer_id : Option Nat
  sku_id : Option Nat
  sku_name : Option String
  category : Option String
  payment_method : Option String
  order_date : Option Date
  price : Rat
  qty_ordered : Rat
  before_discount : Rat
  after_discount : Rat
  cogs : Rat
  is_valid : Int
  net_profit : Rat
  year : Option Int
  month : Option Nat
  month_name : Option Date
deriving DecidableEq

/-- A prepared table or a filtered view of one: rows plus column availability. -/
structure View where
  rows : List PRow
  hasPrice : Bool
  hasQty : Bool
  hasBefore : Bool
  hasAfter : Bool
  hasCogs : Bool
  hasIsValid : Bool
deriving DecidableEq

/-- Preparation of a single row (the body of `load_data`, lines 16-35 of
src/UTS.py): numeric coercion with fillna(0), the two-branch net_profit
computed from the table-level column availability, the 0/1-intended validity
coercion `to_numeric(...).fillna(0).astype(int)`, and the calendar keys
derived from the parsed order date. -/
def prepRow (t : RawTable) (r : RawRow) : PRow :=
  let price := if t.hasPrice then r.price.getD 0 else 0
  let qty := if t.hasQty then r.qty_ordered.getD 0 else 0
  let before := if t.hasBefore then r.before_discount.getD 0 else 0
  let after := if t.hasAfter then r.after_discount.getD 0 else 0
  let cogs := if t.hasCogs then r.cogs.getD 0 else 0
  { id := r.id
    customer_id := r.customer_id
    sku_id := r.sku_id
    sku_name := r.sku_name
    category := r.category
    payment_method := r.payment_method
    order_date := r.order_date
    price := price
    qty_ordered := qty
    before_discount := before
    after_discount := after
    cogs := cogs
    is_valid := if t.hasIsValid then truncRat (r.is_valid.getD 0) else 0
    net_profit :=
      if t.hasBefore && t.hasCogs && t.hasQty then before - cogs * qty
      else price * qty - cogs * qty
    year := r.order_date.map Date.year
    month := r.order_date.map Date.month
    month_name := r.order_date }

/-- The Preparer, `load_data` (src/UTS.py lines 14-36): prepare every row; the
column-availability flags carry over unchanged. -/
def load_data (t : RawTable) : View :=
  { rows := t.rows.map (prepRow t)
    hasPrice := t.hasPrice
    hasQty := t.hasQty
    hasBefore := t.hasBefore
    hasAfter := t.hasAfter
    hasCogs := t.hasCogs
    hasIsValid := t.hasIsValid }

/-- Value of a possibly-absent column's cell as `df.get(col, 0)` reads it: the
coerced cell when the column exists, the scalar 0 otherwise. -/
def colGet (has : Bool) (v : Option Rat) : Rat := if has then v.getD 0 else 0

/-- An uncaught pandas exception: indexing a column absent from the frame. -/
inductive PandasError where
  | keyError (col : String)
deriving DecidableEq

/-- The sidebar filter selections (src/UTS.py lines 57-62): the year is an
integer; category and payment method are strings with the "All" sentinel; the
value-transaction selectbox is one of the strings "All", "Valid", "Not Valid",
compared literally as the code does. -/
structure Criteria where
  year : Int
  category : String
  payment_method : String
  value_transaction : String
deriving DecidableEq

/-- Row predicate of the mandatory year filter (line 66):
`df_f['year'] == int(selected_year)`; a NaN year never equals an integer. -/
def yearEq (y : Int) (r : PRow) : Bool := r.year == some y

/-- Row predicate of the category filter (line 68):
`df_f['category'].astype(str) == selected_category`. -/
def catEq (s : String) (r : PRow) : Bool := strOf r.category == s

/-- Row predicate of the payment-method filter (line 70). -/
def payEq (s : String) (r : PRow) : Bool := strOf r.payment_method == s

/-- Rows surviving the mandatory year filter, `df_f` after line 66. -/
def rowsYear (t : View) (c : Criteria) : List PRow :=
  t.rows.filter (yearEq c.year)

/-- Rows surviving the optional category filter, `df_f` after lines 67-68. -/
def rowsCat (t : View) (c : Criteria) : List PRow :=
  if c.category ≠ "All" then (rowsYear t c).filter (catEq c.category) else rowsYear t c

/-- Rows surviving the optional payment filter, `df_f` after lines 69-70. -/
def rowsPay (t : View) (c : Criteria) : List PRow :=
  if c.payment_method ≠ "All" then (rowsCat t c).filter (payEq c.payment_method)
  else rowsCat t c

/-- The Filter Engine (src/UTS.py lines 65-74).  Filters are applied in the
code's order: year (unconditional), category unless "All", payment method
unless "All", then the validity filter.  The validity branches index the
`is_valid` column unconditionally, so on a table lacking that column they
raise `KeyError('is_valid')`. -/
def applyFilters (t : View) (c : Criteria) : Except PandasError View :=
  if c.value_transaction = "Valid" then
    if t.hasIsValid then
      .ok { t with rows := (rowsPay t c).filter (fun r => r.is_valid == 1) }
    else .error (.keyError "is_valid")
  else if c.value_transaction = "Not Valid" then
    if t.hasIsValid then
      .ok { t with rows := (rowsPay t c).filter (fun r => r.is_valid == 0) }
    else .error (.keyError "is_valid")
  else .ok { t with rows := rowsPay t c }

/-- A single additional filter predicate, for the filter-composition law. -/
inductive OnePred where
  | cat (s : String)
  | pay (s : String)
  | valid (s : String)
deriving DecidableEq

/-- Criteria extended with one additional predicate. -/
def extendCrit (c : Criteria) : OnePred → Criteria
  | .cat s => { c with category := s }
  | .pay s => { c with payment_method := s }
  | .valid s => { c with value_transaction := s }

/-- The single predicate applied on its own to an already-filtered view,
exactly as the corresponding line of the filter block would run it. -/
def applyOne (p : OnePred) (t : View) : Except PandasError View :=
  match p with
  | .cat s => .ok { t with rows := t.rows.filter (catEq s) }
  | .pay s => .ok { t with rows := t.rows.filter (payEq s) }
  | .valid s =>
    if s = "Valid" then
      if t.hasIsValid then .ok { t with rows := t.rows.filter (fun r => r.is_valid == 1) }
      else .error (.keyError "is_valid")
    else if s = "Not Valid" then
      if t.hasIsValid then .ok { t with rows := t.rows.filter (fun r => r.is_valid == 0) }
      else .error (.keyError "is_valid")
    else .ok t

/-- The extension with `p` is admissible when the corresponding criteria slot
is currently inactive, so that the extension really adds one predicate. -/
def admissible (c : Criteria) : OnePred → Prop
  | .cat s => c.category = "All" ∧ s ≠ "All"
  | .pay s => c.payment_method = "All" ∧ s ≠ "All"
  | .valid _ => c.value_transaction ≠ "Valid" ∧ c.value_transaction ≠ "Not Valid"

/-- Lexicographic order on month keys: the order in which the lexically
sortable 'YYYY-MM' strings compare. -/
def keyLE (a b : Date) : Prop :=
  a.year < b.year ∨ (a.year = b.year ∧ a.month ≤ b.month)

/-- Strict lexicographic order on month keys. -/
def keyLT (a b : Date) : Prop :=
  a.year < b.year ∨ (a.year = b.year ∧ a.month < b.month)

instance : DecidableRel keyLE := fun a b => by
  unfold keyLE; infer_instance

instance : DecidableRel keyLT := fun a b => by
  unfold keyLT; infer_instance

instance : IsTotal Date keyLE where
  total a b := by
    unfold keyLE
    rcases lt_trichotomy a.year b.year with h | h | h
    · exact .inl (.inl h)
    · rcases Nat.le_total a.month b.month with hm | hm
      · exact .inl (.inr ⟨h, hm⟩)
      · exact .inr (.inr ⟨h.symm, hm⟩)
    · exact .inr (.inl h)

instance : IsTrans Date keyLE where
  trans a b c hab hbc := by
    unfold keyLE at *
    rcases hab with h1 | ⟨h1, m1⟩ <;> rcases hbc with h2 | ⟨h2, m2⟩
    · exact .inl (h1.trans h2)
    · exact .inl (h2 ▸ h1)
    · exact .inl (h1 ▸ h2)
    · exact .inr ⟨h1.trans h2, m1.trans m2⟩

instance : IsAntisymm Date keyLE where
  antisymm a b hab hba := by
    unfold keyLE at *
    rcases hab with h1 | ⟨h1, m1⟩ <;> rcases hba with h2 | ⟨h2, m2⟩
    · exact absurd (h1.trans h2) (lt_irrefl _)
    · exact absurd h1 (h2 ▸ lt_irrefl _)
    · exact absurd h2 (h1 ▸ lt_irrefl _)
    · cases a; cases b
      simp only at h1 m1 m2
      simp [h1, Nat.le_antisymm m1 m2]

/-- Sorted distinct month keys of a list of rows: pandas `groupby('month_name')`
sorts the group keys ascending and drops rows whose key is NaN. -/
def monthKeys (rows : List PRow) : List Date :=
  List.insertionSort keyLE (uniqueFirst (rows.filterMap PRow.month_name))

/-- The group of rows carrying month key `k`. -/
def monthGroup (rows : List PRow) (k : Date) : List PRow :=
  rows.filter (fun r => r.month_name == some k)

/-- One row of the monthly-trend output (one bucket). -/
structure MBucket where
  key : Date
  unique_orders : Nat
  before_discount : Rat
  net_profit : Rat
  aov : Option Rat
deriving DecidableEq

/-- Sum of a numeric column over a list of rows. -/
def sumBy (f : PRow → Rat) (l : List PRow) : Rat := (l.map f).sum

/-- The monthly-trend aggregation, `monthly_metrics` (src/UTS.py lines 82-85):
group by month key; per bucket the distinct order-id count (`nunique`, which
skips NaN ids), the sums of before_discount and net_profit, and
AOV = before_discount sum / distinct order count.  A zero-order bucket's AOV
is the undefined value (`none`), the embedding of the non-raising float
division by zero.  The agg dict indexes `before_discount`, so a table lacking
that column raises `KeyError`.  The final `sort_index()` re-sorts the already
key-sorted buckets: the output is in ascending key order. -/
def monthly_metrics (t : View) : Except PandasError (List MBucket) :=
  if t.hasBefore then
    .ok ((monthKeys t.rows).map (fun k =>
      let g := monthGroup t.rows k
      let u := nunique (g.map PRow.id)
      let bd := sumBy PRow.before_discount g
      { key := k
        unique_orders := u
        before_discount := bd
        net_profit := sumBy PRow.net_profit g
        aov := if u = 0 then none else some (bd / (u : Rat)) }))
  else .error (.keyError "before_discount")

/-- Grouping key of the product rollup: (sku_id, sku_name, category).  Pandas
`groupby` on several columns drops a row whenever any key cell is NaN, so a
key exists only for rows whose three cells are all non-null. -/
structure ProdKey where
  sku_id : Nat
  sku_name : String
  category : String
deriving DecidableEq

/-- The product grouping key of a row, if all its components are non-null. -/
def prodKeyOf (r : PRow) : Option ProdKey :=
  match r.sku_id, r.sku_name, r.category with
  | some a, some b, some c => some ⟨a, b, c⟩
  | _, _, _ => none

/-- Lexicographic order on product keys, the ascending order in which pandas
emits the groups of a multi-column groupby. -/
def pkLE (a b : ProdKey) : Prop :=
  a.sku_id < b.sku_id ∨ (a.sku_id = b.sku_id ∧
    (a.sku_name < b.sku_name ∨ (a.sku_name = b.sku_name ∧ a.category ≤ b.category)))

instance : DecidableRel pkLE := fun a b => by
  unfold pkLE; infer_instance

instance : IsTotal ProdKey pkLE where
  total a b := by
    unfold pkLE
    rcases lt_trichotomy a.sku_id b.sku_id with h | h | h
    · exact .inl (.inl h)
    · rcases lt_trichotomy a.sku_name b.sku_name with hn | hn | hn
      · exact .inl (.inr ⟨h, .inl hn⟩)
      · rcases le_total a.category b.category with hc | hc
        · exact .inl (.inr ⟨h, .inr ⟨hn, hc⟩⟩)
        · exact .inr (.inr ⟨h.symm, .inr ⟨hn.symm, hc⟩⟩)
      · exact .inr (.inr ⟨h.symm, .inl hn⟩)
    · exact .inr (.inl h)

instance : IsTrans ProdKey pkLE where
  trans a b c hab hbc := by
    unfold pkLE at *
    rcases hab with h1 | ⟨h1, hr1⟩ <;> rcases hbc with h2 | ⟨h2, hr2⟩
    · exact .inl (h1.trans h2)
    · exact .inl (h2 ▸ h1)
    · exact .inl (h1 ▸ h2)
    · refine .inr ⟨h1.trans h2, ?_⟩
      rcases hr1 with hn1 | ⟨hn1, hc1⟩ <;> rcases hr2 with hn2 | ⟨hn2, hc2⟩
      · exact .inl (hn1.trans hn2)
      · exact .inl (hn2 ▸ hn1)
      · exact .inl (hn1 ▸ hn2)
      · exact .inr ⟨hn1.trans hn2, hc1.trans hc2⟩

/-- Sorted distinct product keys of a list of rows. -/
def prodKeys (rows : List PRow) : List ProdKey :=
  List.insertionSort pkLE (uniqueFirst (rows.filterMap prodKeyOf))

/-- The group of rows carrying product key `k`. -/
def prodGroup (rows : List PRow) (k : ProdKey) : List PRow :=
  rows.filter (fun r => prodKeyOf r == some k)

/-- One output row of the product rollup. -/
structure ProdRow where
  key : ProdKey
  before_discount : Rat
  after_discount : Rat
  net_profit : Rat
  qty_ordered : Rat
  unique_customers : Nat
deriving DecidableEq

/-- Descending comparison on summed before_discount, the sort key of
`prod_agg.sort_values('before_discount', ascending=False)`. -/
def bdGE (a b : ProdRow) : Prop := b.before_discount ≤ a.before_discount

instance : DecidableRel bdGE := fun a b => by
  unfold bdGE; infer_instance

instance : IsTotal ProdRow bdGE where
  total a b := le_total b.before_discount a.before_discount

instance : IsTrans ProdRow bdGE where
  trans _ _ _ hab hbc := le_trans hbc hab

/-- The rollup row of one product group. -/
def prodRowOf (rows : List PRow) (k : ProdKey) : ProdRow :=
  let g := prodGroup rows k
  { key := k
    before_discount := sumBy PRow.before_discount g
    after_discount := sumBy PRow.after_discount g
    net_profit := sumBy PRow.net_profit g
    qty_ordered := sumBy PRow.qty_ordered g
    unique_customers := nunique (g.map PRow.customer_id) }

/-- The product rollup, `prod_agg` (src/UTS.py lines 120-127): group the view
by (sku_id, sku_name, category), aggregate each group, then
`sort_values('before_discount', ascending=False)`.  The agg dict indexes the
before_discount, after_discount and qty_ordered columns, so a table lacking
one of them raises `KeyError`.  On ties the library specifies nothing: the
default sort kind ('quicksort', numpy's introsort) fixes no tie order in
general, it only promises a descending permutation of the groupby output.  A
functional embedding must still return one list, so this definition picks the
stable order over the key-ascending groupby output; that choice coincides
with numpy's actual algorithm on arrays below introsort's insertion-sort
cutoff (16 elements), and no theorem below asserts the chosen tie order
universally — only tie-order-independent properties (the element multiset and
the descending order), plus evaluations at concrete inputs small enough that
the real algorithm is the stable base case. -/
def prod_agg (t : View) : Except PandasError (List ProdRow) :=
  if ¬ t.hasBefore then .error (.keyError "before_discount")
  else if ¬ t.hasAfter then .error (.keyError "after_discount")
  else if ¬ t.hasQty then .error (.keyError "qty_ordered")
  else .ok (List.insertionSort bdGE ((prodKeys t.rows).map (prodRowOf t.rows)))

/-- The product rollup as the specification describes it: groups in order of
first discovery in the view, then a stable descending sort on the summed
before_discount, so that tied groups keep their discovery order.  Written from
the spec's words, to be compared with `prod_agg`. -/
def prodAggClaimed (t : View) : List ProdRow :=
  List.insertionSort bdGE
    ((uniqueFirst (t.rows.filterMap prodKeyOf)).map (prodRowOf t.rows))

/-- Category mask of the derived-segment query (src/UTS.py line 159):
`str.lower().str.contains('mobile|tablet')`, a regex alternation of two
literals. -/
def maskCat (r : PRow) : Bool :=
  containsLower (strOf r.category) "mobile" || containsLower (strOf r.category) "tablet"

/-- Payment mask of the derived-segment query (line 160):
`str.lower().str.contains('jazz')`. -/
def maskPay (r : PRow) : Bool := containsLower (strOf r.payment_method) "jazz"

/-- Validity mask of the derived-segment query (line 161): the flag test when
the `is_valid` column exists, the all-pass scalar True otherwise. -/
def maskValid (hasIsValid : Bool) (r : PRow) : Bool :=
  if hasIsValid then r.is_valid == 1 else true

/-- The derived-segment restriction, `df_mobile_jazz` (src/UTS.py line 162). -/
def df_mobile_jazz (t : View) : List PRow :=
  t.rows.filter (fun r => maskCat r && maskPay r && maskValid t.hasIsValid r)

/-- Reported total quantity of the segment (line 166):
`int(df_mobile_jazz['qty_ordered'].sum())`, an integer truncation of the sum;
indexing qty_ordered on a table lacking it raises `KeyError`. -/
def segQty (t : View) : Except PandasError Int :=
  if t.hasQty then .ok (truncRat (sumBy PRow.qty_ordered (df_mobile_jazz t)))
  else .error (.keyError "qty_ordered")

/-- Reported unique customer count of the segment (line 167):
`int(df_mobile_jazz['customer_id'].nunique())`. -/
def segCust (t : View) : Nat :=
  nunique ((df_mobile_jazz t).map PRow.customer_id)

section Examples

/-- Row 1 of the spec's section-8 example dataset (customer id instantiated). -/
def exRow1 : RawRow :=
  { id := some 1, customer_id := some 101, sku_id := some 11,
    sku_name := some "Alpha", category := some "Mobile",
    payment_method := some "JazzWallet", order_date := some ⟨2022, 1⟩,
    price := none, qty_ordered := some 2, before_discount := some 100,
    after_discount := none, cogs := some 20, is_valid := some 1 }

/-- Row 2 of the spec's section-8 example dataset. -/
def exRow2 : RawRow :=
  { id := some 2, customer_id := some 102, sku_id := some 12,
    sku_name := some "Beta", category := some "Laptop",
    payment_method := some "Card", order_date := some ⟨2022, 2⟩,
    price := none, qty_ordered := some 1, before_discount := some 500,
    after_discount := none, cogs := some 300, is_valid := some 1 }

/-- The section-8 example table: price and after_discount columns absent, the
validity column present. -/
def exRaw : RawTable :=
  { rows := [exRow1, exRow2], hasPrice := false, hasQty := true,
    hasBefore := true, hasAfter := false, hasCogs := true, hasIsValid := true }

/-- The section-8 filter selection: year 2022, everything else "All". -/
def exCrit : Criteria :=
  { year := 2022, category := "All", payment_method := "All",
    value_transaction := "All" }

/-- Row 1 of the section-8 dataset after preparation. -/
def exPRow1 : PRow :=
  { id := some 1, customer_id := some 101, sku_id := some 11,
    sku_name := some "Alpha", category := some "Mobile",
    payment_method := some "JazzWallet", order_date := some ⟨2022, 1⟩,
    price := 0, qty_ordered := 2, before_discount := 100, after_discount := 0,
    cogs := 20, is_valid := 1, net_profit := 60, year := some 2022,
    month := some 1, month_name := some ⟨2022, 1⟩ }

/-- Row 2 of the section-8 dataset after preparation. -/
def exPRow2 : PRow :=
  { id := some 2, customer_id := some 102, sku_id := some 12,
    sku_name := some "Beta", category := some "Laptop",
    payment_method := some "Card", order_date := some ⟨2022, 2⟩,
    price := 0, qty_ordered := 1, before_discount := 500, after_discount := 0,
    cogs := 300, is_valid := 1, net_profit := 200, year := some 2022,
    month := some 2, month_name := some ⟨2022, 2⟩ }

/-- The filtered view of the section-8 example under `exCrit`: both rows. -/
def exView : View :=
  { rows := [exPRow1, exPRow2], hasPrice := false, hasQty := true,
    hasBefore := true, hasAfter := false, hasCogs := true, hasIsValid := true }

/-- The monthly buckets of the section-8 view, as the spec's example lists
them. -/
def exM : List MBucket :=
  [{ key := ⟨2022, 1⟩, unique_orders := 1, before_discount := 100,
     net_profit := 60, aov := some 100 },
   { key := ⟨2022, 2⟩, unique_orders := 1, before_discount := 500,
     net_profit := 200, aov := some 500 }]

/-- A raw row with a null grouping-key cell: its category is NaN.  Reaches
any year-2022 filtered view, but the product rollup's groupby drops it. -/
def exRow5 : RawRow :=
  { exRow1 with category := none, sku_id := some 13 }

/-- A one-row table containing the null-category row, with every optional
column present. -/
def exRaw5 : RawTable :=
  { rows := [exRow5], hasPrice := true, hasQty := true, hasBefore := true,
    hasAfter := true, hasCogs := true, hasIsValid := true }

/-- The null-category row after preparation. -/
def exPRow5 : PRow :=
  { exPRow1 with category := none, sku_id := some 13 }

/-- The year-2022 filtered view holding exactly the null-category row. -/
def exView5 : View :=
  { rows := [exPRow5], hasPrice := true, hasQty := true, hasBefore := true,
    hasAfter := true, hasCogs := true, hasIsValid := true }

/-- First-discovered row of the tie example: product key (2, "b", "x"). -/
def exRow8a : RawRow :=
  { exRow1 with sku_id := some 2, sku_name := some "b", category := some "x" }

/-- Second-discovered row of the tie example: product key (1, "a", "x"),
the same before_discount total as the first. -/
def exRow8b : RawRow :=
  { exRow1 with
    id := some 2
    customer_id := some 102
    sku_id := some 1
    sku_name := some "a"
    category := some "x" }

/-- Two-product table whose rollup groups tie on summed before_discount and
whose discovery order is the reverse of the grouping-key order. -/
def exRaw8 : RawTable :=
  { rows := [exRow8a, exRow8b], hasPrice := true, hasQty := true,
    hasBefore := true, hasAfter := true, hasCogs := true, hasIsValid := true }

/-- First tie-example row after preparation. -/
def exPRow8a : PRow :=
  { exPRow1 with sku_id := some 2, sku_name := some "b", category := some "x" }

/-- Second tie-example row after preparation. -/
def exPRow8b : PRow :=
  { exPRow1 with
    id := some 2
    customer_id := some 102
    sku_id := some 1
    sku_name := some "a"
    category := some "x" }

/-- The year-2022 filtered view of the tie example. -/
def exView8 : View :=
  { rows := [exPRow8a, exPRow8b], hasPrice := true, hasQty := true,
    hasBefore := true, hasAfter := true, hasCogs := true, hasIsValid := true }

/-- The rollup of the tie example that the code produces: groups in ascending
key order, the stable descending sort leaving the tied pair untouched. -/
def exP8 : List ProdRow :=
  [{ key := ⟨1, "a", "x"⟩, before_discount := 100, after_discount := 0,
     net_profit := 60, qty_ordered := 2, unique_customers := 1 },
   { key := ⟨2, "b", "x"⟩, before_discount := 100, after_discount := 0,
     net_profit := 60, qty_ordered := 2, unique_customers := 1 }]

/-- A raw row whose order date failed to parse (NaT). -/
def exRowNoDate : RawRow :=
  { exRow1 with id := some 3, order_date := none }

/-- The section-8 table extended with the unparseable-date row. -/
def exRaw10 : RawTable :=
  { exRaw with rows := [exRow1, exRowNoDate] }

/-- The year-2022 filtered view of `exRaw10`: the NaT row is gone. -/
def exView10 : View :=
  { exView with rows := [exPRow1] }

end Examples

section Helpers

theorem mem_uniqueFirst {α : Type} [DecidableEq α] {x : α} :
    ∀ {l : List α}, x ∈ uniqueFirst l ↔ x ∈ l := by
  intro l
  induction l with
  | nil => simp [uniqueFirst]
  | cons a l ih =>
    simp only [uniqueFirst, List.mem_cons, List.mem_filter]
    constructor
    · rintro (rfl | ⟨hx, _⟩)
      · exact .inl rfl
      · exact .inr (ih.mp hx)
    · rintro (rfl | hx)
      · exact .inl rfl
      · by_cases hxa : x = a
        · exact .inl hxa
        · exact .inr ⟨ih.mpr hx, by simp [bne, hxa]⟩

theorem nodup_uniqueFirst {α : Type} [DecidableEq α] :
    ∀ (l : List α), (uniqueFirst l).Nodup := by
  intro l
  induction l with
  | nil => simp [uniqueFirst]
  | cons a l ih =>
    refine List.Nodup.cons ?_ (List.Nodup.filter _ ih)
    intro hmem
    rcases List.mem_filter.mp hmem with ⟨_, hne⟩
    simp [bne] at hne

theorem filter_swap {α : Type} (p q : α → Bool) (l : List α) :
    (l.filter p).filter q = (l.filter q).filter p := by
  rw [List.filter_filter, List.filter_filter]
  exact List.filter_congr fun a _ => Bool.and_comm _ _

theorem sumBy_cons (f : PRow → Rat) (r : PRow) (l : List PRow) :
    sumBy f (r :: l) = f r + sumBy f l := by
  simp [sumBy]

theorem sum_map_ite_unique {κ : Type} [DecidableEq κ] (c : Rat) (k0 : κ) :
    ∀ (ks : List κ), ks.Nodup → k0 ∈ ks →
      (ks.map (fun k => if k0 = k then c else 0)).sum = c := by
  intro ks
  induction ks with
  | nil => simp
  | cons a ks ih =>
    intro hnd hmem
    rcases List.mem_cons.mp hmem with rfl | hmem'
    · have hz : (ks.map (fun k => if k0 = k then c else 0)).sum = 0 := by
        apply List.sum_eq_zero
        intro x hx
        rcases List.mem_map.mp hx with ⟨k, hk, rfl⟩
        have : k0 ≠ k := fun h => (List.nodup_cons.mp hnd).1 (h ▸ hk)
        simp [this]
      simp [hz]
    · have hne : k0 ≠ a := fun h => (List.nodup_cons.mp hnd).1 (h ▸ hmem')
      rw [List.map_cons, List.sum_cons, if_neg hne,
        ih (List.nodup_cons.mp hnd).2 hmem', zero_add]

theorem sum_map_add_split {κ : Type} (f g : κ → Rat) (ks : List κ) :
    (ks.map (fun k => f k + g k)).sum = (ks.map f).sum + (ks.map g).sum := by
  induction ks with
  | nil => simp
  | cons a ks ih => simp [ih]; ring

/-- Summing a column group-by-group over a covering duplicate-free key list
recovers the column's sum over all rows. -/
theorem sum_over_prodGroups (f : PRow → Rat) (ks : List ProdKey) (hnd : ks.Nodup) :
    ∀ rows : List PRow,
      (∀ r ∈ rows, ∃ k ∈ ks, prodKeyOf r = some k) →
      (ks.map (fun k => sumBy f (prodGroup rows k))).sum = sumBy f rows := by
  intro rows
  induction rows with
  | nil => intro _; simp [prodGroup, sumBy]
  | cons r rows ih =>
    intro hcov
    rcases hcov r (List.mem_cons_self r rows) with ⟨k0, hk0, hkey⟩
    have hrest : ∀ x ∈ rows, ∃ k ∈ ks, prodKeyOf x = some k :=
      fun x hx => hcov x (List.mem_cons_of_mem r hx)
    have hgrp : ∀ k, sumBy f (prodGroup (r :: rows) k) =
        (if k0 = k then f r else 0) + sumBy f (prodGroup rows k) := by
      intro k
      by_cases hk : k0 = k
      · subst hk
        have : prodKeyOf r == some k0 := by simp [hkey]
        simp [prodGroup, List.filter_cons, this, sumBy_cons]
      · have hne : ¬ (prodKeyOf r == some k) := by
          simp only [hkey, beq_iff_eq, Option.some.injEq]
          exact fun h => hk h
        simp [prodGroup, List.filter_cons, hne, hk]
    calc (ks.map (fun k => sumBy f (prodGroup (r :: rows) k))).sum
        = (ks.map (fun k => (if k0 = k then f r else 0) + sumBy f (prodGroup rows k))).sum := by
          congr 1
          exact List.map_congr_left fun k _ => hgrp k
      _ = (ks.map (fun k => if k0 = k then f r else 0)).sum
            + (ks.map (fun k => sumBy f (prodGroup rows k))).sum :=
          sum_map_add_split _ _ ks
      _ = f r + sumBy f rows := by
          rw [sum_map_ite_unique (f r) k0 ks hnd hk0, ih hrest]
      _ = sumBy f (r :: rows) := (sumBy_cons f r rows).symm

theorem mem_monthKeys {rows : List PRow} {k : Date} :
    k ∈ monthKeys rows ↔ ∃ r ∈ rows, r.month_name = some k := by
  unfold monthKeys
  rw [(List.perm_insertionSort keyLE _).mem_iff, mem_uniqueFirst, List.mem_filterMap]

theorem nodup_monthKeys (rows : List PRow) : (monthKeys rows).Nodup :=
  (List.perm_insertionSort keyLE _).nodup_iff.mpr (nodup_uniqueFirst _)

theorem sorted_monthKeys (rows : List PRow) : (monthKeys rows).Sorted keyLE :=
  List.sorted_insertionSort keyLE _

theorem pairwise_keyLT_monthKeys (rows : List PRow) :
    (monthKeys rows).Pairwise keyLT := by
  have h := (sorted_monthKeys rows).and (nodup_monthKeys rows)
  refine h.imp ?_
  rintro ⟨ya, ma⟩ ⟨yb, mb⟩ ⟨hle, hne⟩
  rcases hle with hy | ⟨hy, hm⟩
  · exact .inl hy
  · refine .inr ⟨hy, lt_of_le_of_ne hm ?_⟩
    intro hmeq
    exact hne (by simp only at hy hmeq; simp [hy, hmeq])

theorem mem_prodKeys {rows : List PRow} {k : ProdKey} :
    k ∈ prodKeys rows ↔ ∃ r ∈ rows, prodKeyOf r = some k := by
  unfold prodKeys
  rw [(List.perm_insertionSort pkLE _).mem_iff, mem_uniqueFirst, List.mem_filterMap]

theorem nodup_prodKeys (rows : List PRow) : (prodKeys rows).Nodup :=
  (List.perm_insertionSort pkLE _).nodup_iff.mpr (nodup_uniqueFirst _)

theorem sorted_prodKeys (rows : List PRow) : (prodKeys rows).Sorted pkLE :=
  List.sorted_insertionSort pkLE _

theorem mem_rowsPay {t : View} {c : Criteria} {r : PRow} (h : r ∈ rowsPay t c) :
    r ∈ t.rows ∧ r.year = some c.year := by
  unfold rowsPay rowsCat rowsYear at h
  split at h <;> [skip; skip] <;>
    first
    | (simp only [List.mem_filter] at h
       split at h <;> simp only [List.mem_filter] at h <;>
         first
         | exact ⟨h.1.1.1, by simpa [yearEq] using h.1.1.2⟩
         | exact ⟨h.1.1, by simpa [yearEq] using h.1.2⟩)
    | (split at h <;> simp only [List.mem_filter] at h <;>
         first
         | exact ⟨h.1.1, by simpa [yearEq] using h.1.2⟩
         | exact ⟨h.1, by simpa [yearEq] using h.2⟩)

/-- Master inversion of a successful filter run: the view keeps the table's
column availability, and every surviving row comes from the table and matched
the mandatory year filter. -/
theorem applyFilters_ok {t : View} {c : Criteria} {v : View}
    (h : applyFilters t c = .ok v) :
    (v.hasPrice = t.hasPrice ∧ v.hasQty = t.hasQty ∧ v.hasBefore = t.hasBefore ∧
     v.hasAfter = t.hasAfter ∧ v.hasCogs = t.hasCogs ∧ v.hasIsValid = t.hasIsValid) ∧
    ∀ r ∈ v.rows, r ∈ t.rows ∧ r.year = some c.year := by
  unfold applyFilters at h
  split at h
  · split at h
    · cases h
      refine ⟨by simp, fun r hr => mem_rowsPay (List.mem_of_mem_filter hr)⟩
    · cases h
  · split at h
    · split at h
      · cases h
        refine ⟨by simp, fun r hr => mem_rowsPay (List.mem_of_mem_filter hr)⟩
      · cases h
    · cases h
      exact ⟨by simp, fun r hr => mem_rowsPay hr⟩

end Helpers

section Evaluations

theorem ex_load : load_data exRaw = exView := by
  norm_num [load_data, prepRow, exRaw, exRow1, exRow2, exView, exPRow1, exPRow2,
    truncRat]

theorem ex_filter : applyFilters (load_data exRaw) exCrit = .ok exView := by
  rw [ex_load]
  norm_num +decide [applyFilters, rowsPay, rowsCat, rowsYear, yearEq, exCrit,
    exView, exPRow1, exPRow2, List.filter]

theorem ex_monthly : monthly_metrics exView = .ok exM := by
  norm_num +decide [monthly_metrics, exView, exPRow1, exPRow2, exM, monthKeys,
    monthGroup, uniqueFirst, nunique, sumBy, List.insertionSort,
    List.orderedInsert, List.filter_cons, List.filter_nil, List.filterMap_cons,
    List.filterMap_nil, keyLE]

theorem ex5_filter : applyFilters (load_data exRaw5) exCrit = .ok exView5 := by
  have h5 : load_data exRaw5 = exView5 := by
    norm_num [load_data, prepRow, exRaw5, exRow5, exRow1, exView5, exPRow5,
      exPRow1, truncRat]
  rw [h5]
  norm_num +decide [applyFilters, rowsPay, rowsCat, rowsYear, yearEq, exCrit,
    exView5, exPRow5, exPRow1, List.filter]

theorem ex8_filter : applyFilters (load_data exRaw8) exCrit = .ok exView8 := by
  have h8 : load_data exRaw8 = exView8 := by
    norm_num [load_data, prepRow, exRaw8, exRow8a, exRow8b, exRow1, exView8,
      exPRow8a, exPRow8b, exPRow1, truncRat]
  rw [h8]
  norm_num +decide [applyFilters, rowsPay, rowsCat, rowsYear, yearEq, exCrit,
    exView8, exPRow8a, exPRow8b, exPRow1, List.filter]

theorem ex10_filter : applyFilters (load_data exRaw10) exCrit = .ok exView10 := by
  have h10 : load_data exRaw10 =
      { exView with rows := [exPRow1, prepRow exRaw10 exRowNoDate] } := by
    norm_num [load_data, prepRow, exRaw10, exRaw, exRow1, exRowNoDate, exView,
      exPRow1, truncRat]
  rw [h10]
  norm_num +decide [applyFilters, rowsPay, rowsCat, rowsYear, yearEq, exCrit,
    exView10, exView, exPRow1, exRowNoDate, prepRow, exRow1, exRaw10, exRaw,
    truncRat, List.filter]

theorem ex8_prod : prod_agg exView8 = .ok exP8 := by
  norm_num +decide [prod_agg, exView8, exPRow8a, exPRow8b, exPRow1, exP8,
    prodKeys, prodGroup, prodRowOf, prodKeyOf, uniqueFirst, nunique, sumBy,
    bdGE, pkLE, List.insertionSort, List.orderedInsert, List.filter_cons,
    List.filter_nil, List.filterMap_cons, List.filterMap_nil]

theorem ex8_claimed : prodAggClaimed exView8 =
    [{ key := ⟨2, "b", "x"⟩, before_discount := 100, after_discount := 0,
       net_profit := 60, qty_ordered := 2, unique_customers := 1 },
     { key := ⟨1, "a", "x"⟩, before_discount := 100, after_discount := 0,
       net_profit := 60, qty_ordered := 2, unique_customers := 1 }] := by
  norm_num +decide [prodAggClaimed, exView8, exPRow8a, exPRow8b, exPRow1,
    prodGroup, prodRowOf, prodKeyOf, uniqueFirst, nunique, sumBy, bdGE,
    List.insertionSort, List.orderedInsert, List.filter_cons, List.filter_nil,
    List.filterMap_cons, List.filterMap_nil]

theorem ex5_prod : prod_agg exView5 = .ok [] := by
  norm_num +decide [prod_agg, exView5, exPRow5, exPRow1, prodKeys, prodKeyOf,
    uniqueFirst, List.insertionSort, List.filterMap_cons, List.filterMap_nil]

end Evaluations

section Claims

/-- C2: for every raw table, prepare computes net_profit by one of two
formulas selected once from column availability (not per row): if
before_discount, cogs and qty_ordered are all present then for every row
net_profit = before_discount - cogs * qty_ordered (on the coerced cells);
otherwise net_profit = price * qty_ordered - cogs * qty_ordered where an
absent column contributes 0 (`df.get(col, 0)`). -/
theorem net_profit_two_branch (R : RawTable) (rr : RawRow) (h : rr ∈ R.rows) :
    prepRow R rr ∈ (load_data R).rows ∧
    (prepRow R rr).net_profit =
      (if R.hasBefore ∧ R.hasCogs ∧ R.hasQty
       then rr.before_discount.getD 0 - rr.cogs.getD 0 * rr.qty_ordered.getD 0
       else colGet R.hasPrice rr.price * colGet R.hasQty rr.qty_ordered
            - colGet R.hasCogs rr.cogs * colGet R.hasQty rr.qty_ordered) := by
  refine ⟨List.mem_map_of_mem (prepRow R) h, ?_⟩
  unfold prepRow colGet
  by_cases hb : R.hasBefore <;> by_cases hc : R.hasCogs <;> by_cases hq : R.hasQty <;>
    simp [hb, hc, hq]

/-- Witness for C2 at the section-8 example table: row 1's net profit follows
the primary formula, 100 - 20 * 2 = 60. -/
theorem net_profit_two_branch_witness :
    (exRow1 ∈ exRaw.rows ∧
      (prepRow exRaw exRow1 ∈ (load_data exRaw).rows ∧
       (prepRow exRaw exRow1).net_profit =
         (if exRaw.hasBefore ∧ exRaw.hasCogs ∧ exRaw.hasQty
          then exRow1.before_discount.getD 0
               - exRow1.cogs.getD 0 * exRow1.qty_ordered.getD 0
          else colGet exRaw.hasPrice exRow1.price
               * colGet exRaw.hasQty exRow1.qty_ordered
               - colGet exRaw.hasCogs exRow1.cogs
               * colGet exRaw.hasQty exRow1.qty_ordered))) ∧
    (prepRow exRaw exRow1).net_profit = 60 := by
  have hmem : exRow1 ∈ exRaw.rows := by simp [exRaw]
  refine ⟨⟨hmem, net_profit_two_branch exRaw exRow1 hmem⟩, ?_⟩
  norm_num [prepRow, exRaw, exRow1]

/-- C7 (amended): for every raw table containing a validity column, after
preparation each row's validity flag is the integer truncation of its coerced
cell: a non-numeric or missing cell becomes 0, cells 0 and 1 stay 0 and 1, but
other numeric values pass through untouched rather than being clamped into
{0, 1}. -/
theorem is_valid_truncation (R : RawTable) (rr : RawRow) (h : rr ∈ R.rows)
    (hv : R.hasIsValid = true) :
    prepRow R rr ∈ (load_data R).rows ∧
    (prepRow R rr).is_valid = truncRat (rr.is_valid.getD 0) ∧
    (rr.is_valid = none → (prepRow R rr).is_valid = 0) ∧
    (rr.is_valid = some 0 → (prepRow R rr).is_valid = 0) ∧
    (rr.is_valid = some 1 → (prepRow R rr).is_valid = 1) := by
  refine ⟨List.mem_map_of_mem (prepRow R) h, ?_, ?_, ?_, ?_⟩ <;>
    try intro hcell
  · simp [prepRow, hv]
  · simp [prepRow, hv, hcell]
    norm_num [truncRat]
  · simp [prepRow, hv, hcell]
    norm_num [truncRat]
  · simp [prepRow, hv, hcell]
    norm_num [truncRat]

/-- Counterexample to C7 as stated: a numeric validity cell 2 is not mapped
into {0, 1}; `astype(int)` truncates but does not clamp, so the prepared flag
is the integer 2. -/
theorem is_valid_not_clamped :
    ({ exRow1 with is_valid := some 2 } : RawRow).is_valid = some 2 ∧
    (prepRow exRaw { exRow1 with is_valid := some 2 }).is_valid = 2 ∧
    ¬ ((prepRow exRaw { exRow1 with is_valid := some 2 }).is_valid = 0 ∨
       (prepRow exRaw { exRow1 with is_valid := some 2 }).is_valid = 1) := by
  refine ⟨rfl, ?_, ?_⟩ <;> norm_num [prepRow, exRaw, exRow1, truncRat]

/-- Witness for C7's amended theorem at the section-8 table: row 1's validity
cell is 1 and its prepared flag is 1. -/
theorem is_valid_truncation_witness :
    (exRow1 ∈ exRaw.rows ∧ exRaw.hasIsValid = true) ∧
    (prepRow exRaw exRow1).is_valid = 1 := by
  have hmem : exRow1 ∈ exRaw.rows := by simp [exRaw]
  exact ⟨⟨hmem, rfl⟩,
    (is_valid_truncation exRaw exRow1 hmem rfl).2.2.2.2 rfl⟩

/-- C1 is a code bug: on a prepared table lacking the is_valid column, a
validity filter selection does not degrade to "no rows excluded" nor signal
the condition; lines 71-74 index the missing column and the run dies with
KeyError('is_valid').  Line 161 shows the guard the filter block lacks.  This
theorem evaluates the code at the failing input: the section-8 table with the
validity column removed, under each of the two validity selections. -/
theorem missing_validity_column_raises :
    applyFilters (load_data { exRaw with hasIsValid := false })
        { exCrit with value_transaction := "Valid" }
      = .error (.keyError "is_valid") ∧
    applyFilters (load_data { exRaw with hasIsValid := false })
        { exCrit with value_transaction := "Not Valid" }
      = .error (.keyError "is_valid") := by
  constructor <;> rfl

/-- C10: a row whose order date failed to parse is retained by preparation
with a missing year, and the mandatory year-equality filter excludes it from
every successfully filtered view, so it can never contribute to any
aggregation computed from such a view. -/
theorem unparsed_dates_never_contribute (R : RawTable) (c : Criteria) :
    (load_data R).rows.length = R.rows.length ∧
    (∀ rr ∈ R.rows, rr.order_date = none →
      prepRow R rr ∈ (load_data R).rows ∧ (prepRow R rr).year = none) ∧
    (∀ v, applyFilters (load_data R) c = .ok v → ∀ r ∈ v.rows, r.year ≠ none) := by
  refine ⟨by simp [load_data], ?_, ?_⟩
  · intro rr hmem hdate
    exact ⟨List.mem_map_of_mem (prepRow R) hmem, by simp [prepRow, hdate]⟩
  · intro v hv r hr
    have := ((applyFilters_ok hv).2 r hr).2
    simp [this]

/-- Witness for C10 at the concrete table with one NaT-date row: that row is
prepared (the table keeps both rows) with a missing year, and the year-2022
view contains no missing-year row. -/
theorem unparsed_dates_never_contribute_witness :
    (load_data exRaw10).rows.length = exRaw10.rows.length ∧
    (exRowNoDate ∈ exRaw10.rows ∧ exRowNoDate.order_date = none ∧
      prepRow exRaw10 exRowNoDate ∈ (load_data exRaw10).rows ∧
      (prepRow exRaw10 exRowNoDate).year = none) ∧
    (applyFilters (load_data exRaw10) exCrit = .ok exView10 ∧
      ∀ r ∈ exView10.rows, r.year ≠ none) := by
  have hmem : exRowNoDate ∈ exRaw10.rows := by simp [exRaw10, exRaw]
  have hdate : exRowNoDate.order_date = none := rfl
  refine ⟨(unparsed_dates_never_contribute exRaw10 exCrit).1,
    ⟨hmem, hdate, (unparsed_dates_never_contribute exRaw10 exCrit).2.1 exRowNoDate hmem hdate⟩,
    ex10_filter,
    (unparsed_dates_never_contribute exRaw10 exCrit).2.2 exView10 ex10_filter⟩

/-- C3: for every filtered view, the monthly aggregation groups rows by the
year-month key and per bucket reports the distinct order-id count, the
before_discount and net_profit sums, and AOV = before_discount sum divided by
the distinct order count, undefined instead of raising when the bucket has
zero (non-null) order ids; every key occurring in the view gets a bucket and
buckets are emitted in ascending (chronological = lexical) key order. -/
theorem monthly_trend_correct (T : View) (c : Criteria) (v : View)
    (M : List MBucket) (hf : applyFilters T c = .ok v)
    (hm : monthly_metrics v = .ok M) :
    (∀ b ∈ M,
      (∃ r ∈ v.rows, r.month_name = some b.key) ∧
      b.unique_orders = nunique ((monthGroup v.rows b.key).map PRow.id) ∧
      b.before_discount = sumBy PRow.before_discount (monthGroup v.rows b.key) ∧
      b.net_profit = sumBy PRow.net_profit (monthGroup v.rows b.key) ∧
      b.aov = (if b.unique_orders = 0 then none
               else some (b.before_discount / (b.unique_orders : Rat)))) ∧
    (∀ k : Date, (∃ r ∈ v.rows, r.month_name = some k) → ∃ b ∈ M, b.key = k) ∧
    M.Pairwise (fun a b => keyLT a.key b.key) := by
  unfold monthly_metrics at hm
  split at hm
  · injection hm with hM
    subst hM
    refine ⟨?_, ?_, ?_⟩
    · intro b hbm
      rcases List.mem_map.mp hbm with ⟨k, hk, rfl⟩
      exact ⟨mem_monthKeys.mp hk, rfl, rfl, rfl, rfl⟩
    · intro k hk
      exact ⟨_, List.mem_map_of_mem _ (mem_monthKeys.mpr hk), rfl⟩
    · exact (pairwise_keyLT_monthKeys v.rows).map _ (fun a b h => h)
  · cases hm

/-- Witness for C3 at the section-8 example: the two buckets carry the spec's
example numbers (before 100/500, profit 60/200, AOV 100/500, one distinct
order each) in ascending key order. -/
theorem monthly_trend_correct_witness :
    (applyFilters (load_data exRaw) exCrit = .ok exView ∧
     monthly_metrics exView = .ok exM) ∧
    ((∀ b ∈ exM,
      (∃ r ∈ exView.rows, r.month_name = some b.key) ∧
      b.unique_orders = nunique ((monthGroup exView.rows b.key).map PRow.id) ∧
      b.before_discount = sumBy PRow.before_discount (monthGroup exView.rows b.key) ∧
      b.net_profit = sumBy PRow.net_profit (monthGroup exView.rows b.key) ∧
      b.aov = (if b.unique_orders = 0 then none
               else some (b.before_discount / (b.unique_orders : Rat)))) ∧
    (∀ k : Date, (∃ r ∈ exView.rows, r.month_name = some k) → ∃ b ∈ exM, b.key = k) ∧
    exM.Pairwise (fun a b => keyLT a.key b.key)) :=
  ⟨⟨ex_filter, ex_monthly⟩,
   monthly_trend_correct (load_data exRaw) exCrit exView exM ex_filter ex_monthly⟩

/-- C6: for every filtered view of a prepared table, the month buckets
partition the view exactly: each view row lies in exactly one bucket (its
parsed date is guaranteed by the year filter), and buckets only hold view
rows. -/
theorem monthly_buckets_partition (R : RawTable) (c : Criteria) (v : View)
    (hf : applyFilters (load_data R) c = .ok v) :
    (∀ r ∈ v.rows, ∃! k : Date, k ∈ monthKeys v.rows ∧ r ∈ monthGroup v.rows k) ∧
    (∀ k ∈ monthKeys v.rows, ∀ r ∈ monthGroup v.rows k, r ∈ v.rows) := by
  constructor
  · intro r hr
    obtain ⟨hmem, hyear⟩ := (applyFilters_ok hf).2 r hr
    rcases List.mem_map.mp hmem with ⟨rr, _, rfl⟩
    have hdate : ∃ d, rr.order_date = some d := by
      have : (rr.order_date.map Date.year) = some c.year := hyear
      rcases Option.map_eq_some'.mp this with ⟨d, hd, _⟩
      exact ⟨d, hd⟩
    rcases hdate with ⟨d, hd⟩
    have hmn : (prepRow R rr).month_name = some d := by simp [prepRow, hd]
    refine ⟨d, ⟨mem_monthKeys.mpr ⟨_, hr, hmn⟩, ?_⟩, ?_⟩
    · exact List.mem_filter.mpr ⟨hr, by simp [hmn]⟩
    · rintro k' ⟨_, hin⟩
      have := (List.mem_filter.mp hin).2
      simp only [hmn, beq_iff_eq, Option.some.injEq] at this
      exact this.symm
  · intro k _ r hrg
    exact List.mem_of_mem_filter hrg

/-- Witness for C6 at the section-8 example view. -/
theorem monthly_buckets_partition_witness :
    applyFilters (load_data exRaw) exCrit = .ok exView ∧
    ((∀ r ∈ exView.rows,
       ∃! k : Date, k ∈ monthKeys exView.rows ∧ r ∈ monthGroup exView.rows k) ∧
     (∀ k ∈ monthKeys exView.rows, ∀ r ∈ monthGroup exView.rows k, r ∈ exView.rows)) :=
  ⟨ex_filter, monthly_buckets_partition exRaw exCrit exView ex_filter⟩

theorem rowsPay_ext_cat (t : View) (c : Criteria) (s : String)
    (hAll : c.category = "All") (hs : s ≠ "All") :
    rowsPay t { c with category := s } = (rowsPay t c).filter (catEq s) := by
  obtain ⟨cy, cc, cp, cv⟩ := c
  simp only at hAll
  subst hAll
  unfold rowsPay rowsCat rowsYear
  dsimp only
  by_cases hp : cp = "All" <;>
    simp only [ne_eq, hs, hp, not_false_eq_true, not_true_eq_false, if_true,
      if_false, ite_true, ite_false, not_false_iff] <;>
    first
      | rfl
      | exact filter_swap _ _ _

theorem rowsPay_ext_pay (t : View) (c : Criteria) (s : String)
    (hAll : c.payment_method = "All") (hs : s ≠ "All") :
    rowsPay t { c with payment_method := s } = (rowsPay t c).filter (payEq s) := by
  obtain ⟨cy, cc, cp, cv⟩ := c
  simp only at hAll
  subst hAll
  unfold rowsPay rowsCat rowsYear
  dsimp only
  by_cases hc : cc = "All" <;>
    simp only [ne_eq, hs, hc, not_false_eq_true, not_true_eq_false, if_true,
      if_false, ite_true, ite_false, not_false_iff]

theorem rowsPay_ext_valid (t : View) (c : Criteria) (s : String) :
    rowsPay t { c with value_transaction := s } = rowsPay t c := rfl

theorem applyFilters_ext_cat (t : View) (c : Criteria) (s : String)
    (hAll : c.category = "All") (hs : s ≠ "All") :
    applyFilters t { c with category := s }
      = (applyFilters t c).bind (applyOne (.cat s)) := by
  have hrp := rowsPay_ext_cat t c s hAll hs
  obtain ⟨cy, cc, cp, cv⟩ := c
  unfold applyFilters
  dsimp only
  rw [hrp]
  by_cases hv1 : cv = "Valid"
  · rw [if_pos hv1, if_pos hv1]
    by_cases hiv : t.hasIsValid
    · rw [if_pos hiv, if_pos hiv]
      show _ = Except.ok _
      simp only [Except.bind, applyOne]
      rw [filter_swap]
    · rw [if_neg hiv, if_neg hiv]
      rfl
  · rw [if_neg hv1, if_neg hv1]
    by_cases hv2 : cv = "Not Valid"
    · rw [if_pos hv2, if_pos hv2]
      by_cases hiv : t.hasIsValid
      · rw [if_pos hiv, if_pos hiv]
        simp only [Except.bind, applyOne]
        rw [filter_swap]
      · rw [if_neg hiv, if_neg hiv]
        rfl
    · rw [if_neg hv2, if_neg hv2]
      rfl

theorem applyFilters_ext_pay (t : View) (c : Criteria) (s : String)
    (hAll : c.payment_method = "All") (hs : s ≠ "All") :
    applyFilters t { c with payment_method := s }
      = (applyFilters t c).bind (applyOne (.pay s)) := by
  have hrp := rowsPay_ext_pay t c s hAll hs
  obtain ⟨cy, cc, cp, cv⟩ := c
  unfold applyFilters
  dsimp only
  rw [hrp]
  by_cases hv1 : cv = "Valid"
  · rw [if_pos hv1, if_pos hv1]
    by_cases hiv : t.hasIsValid
    · rw [if_pos hiv, if_pos hiv]
      simp only [Except.bind, applyOne]
      rw [filter_swap]
    · rw [if_neg hiv, if_neg hiv]
      rfl
  · rw [if_neg hv1, if_neg hv1]
    by_cases hv2 : cv = "Not Valid"
    · rw [if_pos hv2, if_pos hv2]
      by_cases hiv : t.hasIsValid
      · rw [if_pos hiv, if_pos hiv]
        simp only [Except.bind, applyOne]
        rw [filter_swap]
      · rw [if_neg hiv, if_neg hiv]
        rfl
    · rw [if_neg hv2, if_neg hv2]
      rfl

theorem applyFilters_ext_valid (t : View) (c : Criteria) (s : String)
    (h1 : c.value_transaction ≠ "Valid") (h2 : c.value_transaction ≠ "Not Valid") :
    applyFilters t { c with value_transaction := s }
      = (applyFilters t c).bind (applyOne (.valid s)) := by
  obtain ⟨cy, cc, cp, cv⟩ := c
  simp only at h1 h2
  unfold applyFilters
  dsimp only
  rw [if_neg h1, if_neg h2]
  simp only [Except.bind, applyOne]
  rfl

/-- C4: filtering is a pure restriction producing a new view (the prepared
table is untouched; in this functional embedding the input is immutable by
construction): every row of a successfully filtered view is a row of the
table; and extending the criteria with one additional predicate equals
applying that predicate's filter alone to the already-filtered view. -/
theorem filter_restriction_and_composition (t : View) (c : Criteria) :
    (∀ v, applyFilters t c = .ok v → ∀ r ∈ v.rows, r ∈ t.rows) ∧
    (∀ p : OnePred, admissible c p →
      applyFilters t (extendCrit c p) = (applyFilters t c).bind (applyOne p)) := by
  constructor
  · intro v hv r hr
    exact ((applyFilters_ok hv).2 r hr).1
  · rintro (s | s | s) hadm
    · exact applyFilters_ext_cat t c s hadm.1 hadm.2
    · exact applyFilters_ext_pay t c s hadm.1 hadm.2
    · exact applyFilters_ext_valid t c s hadm.1 hadm.2

/-- Witness for C4: at the section-8 table, extending the all-pass criteria
with the category predicate "Mobile" equals filtering the filtered view by
that predicate alone, and the filtered view's rows all come from the table. -/
theorem filter_restriction_and_composition_witness :
    admissible exCrit (OnePred.cat "Mobile") ∧
    applyFilters (load_data exRaw) (extendCrit exCrit (OnePred.cat "Mobile"))
      = (applyFilters (load_data exRaw) exCrit).bind (applyOne (OnePred.cat "Mobile")) ∧
    (∀ r ∈ exView.rows, r ∈ (load_data exRaw).rows) :=
  ⟨⟨rfl, by decide⟩,
   (filter_restriction_and_composition (load_data exRaw) exCrit).2
     (OnePred.cat "Mobile") ⟨rfl, by decide⟩,
   (filter_restriction_and_composition (load_data exRaw) exCrit).1 exView ex_filter⟩

/-- C5 (amended): for every filtered view all of whose rows carry a complete
grouping key (non-null sku_id, sku_name and category), the before_discount
total over the rollup rows equals the total over the view; rows with a null
key cell are dropped by the pandas groupby, which is what the counterexample
exhibits. -/
theorem rollup_sum_preserved (T : View) (c : Criteria) (v : View)
    (P : List ProdRow) (hf : applyFilters T c = .ok v)
    (hkeys : ∀ r ∈ v.rows, (prodKeyOf r).isSome) (hp : prod_agg v = .ok P) :
    (P.map ProdRow.before_discount).sum = sumBy PRow.before_discount v.rows := by
  unfold prod_agg at hp
  split at hp
  · cases hp
  · split at hp
    · cases hp
    · split at hp
      · cases hp
      · injection hp with hP
        subst hP
        rw [((List.perm_insertionSort bdGE
            ((prodKeys v.rows).map (prodRowOf v.rows))).map
            ProdRow.before_discount).sum_eq, List.map_map]
        have hcomp : ProdRow.before_discount ∘ prodRowOf v.rows
            = fun k => sumBy PRow.before_discount (prodGroup v.rows k) := rfl
        rw [hcomp]
        apply sum_over_prodGroups _ _ (nodup_prodKeys v.rows)
        intro r hr
        rcases Option.isSome_iff_exists.mp (hkeys r hr) with ⟨k, hk⟩
        exact ⟨k, mem_prodKeys.mpr ⟨r, hr, hk⟩, hk⟩

/-- Counterexample to C5 as stated: the year-2022 view of the one-row table
whose category cell is NaN sums to 100, but the rollup is empty (the groupby
dropped the row), so the rollup total 0 differs from the view total. -/
theorem rollup_drops_null_key_row :
    applyFilters (load_data exRaw5) exCrit = .ok exView5 ∧
    prod_agg exView5 = .ok [] ∧
    (([] : List ProdRow).map ProdRow.before_discount).sum = 0 ∧
    sumBy PRow.before_discount exView5.rows = 100 ∧ (0 : Rat) ≠ 100 := by
  refine ⟨ex5_filter, ex5_prod, rfl, ?_, by norm_num⟩
  norm_num [sumBy, exView5, exPRow5, exPRow1]

/-- Witness for C5's amended theorem at the two-product tie example: the
rollup total equals the view total, 200. -/
theorem rollup_sum_preserved_witness :
    (applyFilters (load_data exRaw8) exCrit = .ok exView8 ∧
     (∀ r ∈ exView8.rows, (prodKeyOf r).isSome) ∧
     prod_agg exView8 = .ok exP8) ∧
    (exP8.map ProdRow.before_discount).sum = sumBy PRow.before_discount exView8.rows := by
  have hkeys : ∀ r ∈ exView8.rows, (prodKeyOf r).isSome := by
    intro r hr
    rcases List.mem_cons.mp hr with rfl | hr'
    · rfl
    · rcases List.mem_cons.mp hr' with rfl | h
      · rfl
      · cases h
  exact ⟨⟨ex8_filter, hkeys, ex8_prod⟩,
    rollup_sum_preserved (load_data exRaw8) exCrit exView8 exP8 ex8_filter
      hkeys ex8_prod⟩

/-- C8 (amended): for every filtered view the rollup rows are sorted in
descending order of summed before_discount, and they are exactly (a
permutation of) the rollup rows of the key-ascending groupby — no row is
gained or lost by the sort.  How rows with equal sums are ordered among
themselves is left unspecified by the code: the pandas default sort kind
fixes no tie order, and in particular (the counterexample) the tie order is
not the original group-discovery order.  Both conjuncts proved here hold for
every descending permutation, so they do not depend on the tie order the
embedding's sort function picks. -/
theorem rollup_sorted_desc (T : View) (c : Criteria) (v : View)
    (P : List ProdRow) (hf : applyFilters T c = .ok v)
    (hp : prod_agg v = .ok P) :
    P.Pairwise bdGE ∧ P.Perm ((prodKeys v.rows).map (prodRowOf v.rows)) := by
  unfold prod_agg at hp
  split at hp
  · cases hp
  · split at hp
    · cases hp
    · split at hp
      · cases hp
      · injection hp with hP
        subst hP
        exact ⟨List.sorted_insertionSort bdGE _, List.perm_insertionSort bdGE _⟩

/-- Counterexample to C8 as stated: on the tie example the code's rollup has
the two equal-sum groups in ascending grouping-key order, the reverse of
their discovery order, so the spec-described output (stable sort of
discovery-ordered groups, prodAggClaimed) differs from the code's output.
The groupby emits groups key-sorted before the sort runs, which is what
destroys discovery order; and at this two-element input the modelled tie
order provably matches the program, because numpy's introsort on an array
below its cutoff is exactly the stable insertion sort. -/
theorem rollup_tie_order_counterexample :
    applyFilters (load_data exRaw8) exCrit = .ok exView8 ∧
    prod_agg exView8 ≠ .ok (prodAggClaimed exView8) := by
  refine ⟨ex8_filter, ?_⟩
  rw [ex8_prod, ex8_claimed]
  intro h
  injection h with h'
  rw [exP8] at h'
  injection h' with h1 _
  injection h1 with hkey _
  cases hkey

/-- Witness for C8's amended theorem at the tie example. -/
theorem rollup_sorted_desc_witness :
    (applyFilters (load_data exRaw8) exCrit = .ok exView8 ∧
     prod_agg exView8 = .ok exP8) ∧
    (exP8.Pairwise bdGE ∧
     exP8.Perm ((prodKeys exView8.rows).map (prodRowOf exView8.rows))) :=
  ⟨⟨ex8_filter, ex8_prod⟩,
   rollup_sorted_desc (load_data exRaw8) exCrit exView8 exP8
     ex8_filter ex8_prod⟩

/-- C9: for every filtered view the derived-segment query selects exactly the
rows whose category text case-insensitively contains "mobile" or "tablet",
whose payment text case-insensitively contains "jazz", and — when the table
has a validity column — whose flag is 1; it reports the integer-truncated
quantity sum and the distinct-customer count over that subset; on the
section-8 example it reports quantity 2 and the one customer of row 1. -/
theorem segment_query_correct :
    (∀ (T : View) (c : Criteria) (v : View), applyFilters T c = .ok v →
      ∀ r : PRow,
        (r ∈ df_mobile_jazz v ↔
          r ∈ v.rows ∧
          (containsLower (strOf r.category) "mobile" = true ∨
           containsLower (strOf r.category) "tablet" = true) ∧
          containsLower (strOf r.payment_method) "jazz" = true ∧
          (v.hasIsValid = true → r.is_valid = 1)) ∧
        (∀ q, segQty v = .ok q →
          q = truncRat (sumBy PRow.qty_ordered (df_mobile_jazz v))) ∧
        segCust v = nunique ((df_mobile_jazz v).map PRow.customer_id)) ∧
    df_mobile_jazz exView = [exPRow1] ∧
    segQty exView = .ok 2 ∧ segCust exView = 1 := by
  refine ⟨?_, ?_, ?_, ?_⟩
  · intro T c v _ r
    refine ⟨?_, ?_, rfl⟩
    · unfold df_mobile_jazz maskCat maskPay maskValid
      rw [List.mem_filter]
      constructor
      · rintro ⟨hrt, hcond⟩
        simp only [Bool.and_eq_true, Bool.or_eq_true] at hcond
        obtain ⟨⟨hcat, hpay⟩, hval⟩ := hcond
        refine ⟨hrt, hcat, hpay, ?_⟩
        intro hiv
        rw [hiv] at hval
        simpa using hval
      · rintro ⟨hrt, hcat, hpay, hval⟩
        refine ⟨hrt, ?_⟩
        simp only [Bool.and_eq_true, Bool.or_eq_true]
        refine ⟨⟨hcat, hpay⟩, ?_⟩
        cases hiv : v.hasIsValid
        · simp
        · simp [hval hiv]
    · intro q hq
      unfold segQty at hq
      split at hq
      · injection hq with h
        exact h.symm
      · cases hq
  · norm_num +decide [df_mobile_jazz, maskCat, maskPay, maskValid,
      containsLower, lowerStr, isInfixB, isPrefixOfB, strOf, exView, exPRow1,
      exPRow2, List.filter_cons, List.filter_nil]
  · norm_num +decide [segQty, df_mobile_jazz, maskCat, maskPay, maskValid,
      containsLower, lowerStr, isInfixB, isPrefixOfB, strOf, exView, exPRow1,
      exPRow2, sumBy, truncRat, List.filter_cons, List.filter_nil]
  · norm_num +decide [segCust, nunique, df_mobile_jazz, maskCat, maskPay,
      maskValid, containsLower, lowerStr, isInfixB, isPrefixOfB, strOf, exView,
      exPRow1, exPRow2, uniqueFirst, List.filter_cons, List.filter_nil,
      List.filterMap_cons, List.filterMap_nil]

/-- Witness for C9 at the section-8 view: row 1 satisfies the selection
characterization, and the reported numbers are 2 and 1. -/
theorem segment_query_correct_witness :
    applyFilters (load_data exRaw) exCrit = .ok exView ∧
    exPRow1 ∈ df_mobile_jazz exView ∧
    segQty exView = .ok 2 ∧ segCust exView = 1 := by
  refine ⟨ex_filter, ?_, segment_query_correct.2.2.1, segment_query_correct.2.2.2⟩
  refine ((segment_query_correct.1 (load_data exRaw) exCrit exView ex_filter
    exPRow1).1).mpr ⟨by simp [exView], ?_, ?_, fun _ => rfl⟩
  · left
    decide
  · decide

end Claims

end Tokopodia
